import Mathlib

/-!
Shallow embedding of `buildbot_aws_sqs/__init__.py`: the SQS polling change
source for buildbot.  Python classes `SQSPollingService`, `SQSSource` and
`SQSJsonSource` are modelled as Lean functions over explicit state; external
collaborators (the boto3 SQS client, the buildbot master database/data API,
and Python's `json` module parser) are modelled as oracles/parameters, while
everything the repository's own code does (response classification, message
transformation, duplicate filtering, deletion policy, error propagation) is
translated directly from the source.
-/

namespace BuildbotAwsSqs

/-- JSON values, as produced by Python's `json.loads` and consumed by
`json.dumps`.  JSON numbers are modelled as integers (no claim touches
fractional JSON number serialization). -/
inductive Json where
  | null : Json
  | bool (b : Bool) : Json
  | num (n : Int) : Json
  | str (s : String) : Json
  | arr (xs : List Json) : Json
  | obj (fields : List (String × Json)) : Json

/-- Escaping of `"` and backslash in a character sequence, as `json.dumps`
performs inside JSON string literals on the plain strings the claims use. -/
def escapeChars : List Char → String
  | [] => ""
  | c :: cs =>
      (if c = '"' then "\\\""
       else if c = '\\' then "\\\\"
       else String.singleton c) ++ escapeChars cs

/-- Escaping applied to a string. -/
def jsonEscape (s : String) : String := escapeChars s.data

mutual

/-- `json.dumps` with default options: `", "` between items and `": "`
between a key and its value (matching CPython's default separators). -/
def Json.dumps : Json → String
  | Json.null => "null"
  | Json.bool true => "true"
  | Json.bool false => "false"
  | Json.num n => toString n
  | Json.str s => "\"" ++ jsonEscape s ++ "\""
  | Json.arr xs => "[" ++ Json.dumpsList xs ++ "]"
  | Json.obj fs => "\x7b" ++ Json.dumpsFields fs ++ "\x7d"

def Json.dumpsList : List Json → String
  | [] => ""
  | [x] => Json.dumps x
  | x :: xs => Json.dumps x ++ ", " ++ Json.dumpsList xs

def Json.dumpsFields : List (String × Json) → String
  | [] => ""
  | [(k, v)] => "\"" ++ jsonEscape k ++ "\": " ++ Json.dumps v
  | (k, v) :: fs => "\"" ++ jsonEscape k ++ "\": " ++ Json.dumps v ++ ", " ++ Json.dumpsFields fs

end

/-- Whether a JSON value is an object (a Python `dict` after `json.loads`),
hence usable as the right operand of a `**` unpacking. -/
def Json.isObj : Json → Bool
  | Json.obj _ => true
  | _ => false

/-- Python dict: insert key `k` with value `v`, overwriting in place when the
key is already present (Python keeps the first insertion position). -/
def dictInsert (d : List (String × Json)) (k : String) (v : Json) :
    List (String × Json) :=
  if d.any (fun p => p.1 = k) then
    d.map (fun p => if p.1 = k then (k, v) else p)
  else d ++ [(k, v)]

/-- Python dict construction `\x7b..., **m\x7d`: the items of `m` are inserted
left to right into the dict built so far, overwriting existing keys. -/
def dictMerge (d : List (String × Json)) (items : List (String × Json)) :
    List (String × Json) :=
  items.foldl (fun acc p => dictInsert acc p.1 p.2) d

/-- Python dict lookup `d[k]` as an `Option`. -/
def dictGet (d : List (String × Json)) (k : String) : Option Json :=
  (d.find? (fun p => p.1 = k)).map (fun p => p.2)

/-- A raw SQS message as delivered by `receive_message`:
`MessageId`, `ReceiptHandle`, `Body` and `Attributes['SentTimestamp']`
(milliseconds). -/
structure RawMsg where
  messageId : String
  receiptHandle : String
  body : String
  sentTimestamp : Nat
deriving DecidableEq, Repr

/-- After `process_msg` the message `Body` is either still the raw string
(`SQSSource`) or the structure parsed by `json.loads` (`SQSJsonSource`). -/
inductive Body where
  | raw (s : String) : Body
  | parsed (j : Json) : Body

/-- A message after `process_msg`, with its possibly rewritten `Body`. -/
structure PMsg where
  messageId : String
  receiptHandle : String
  body : Body
  sentTimestamp : Nat

/-- Python exceptions that can cross the boundaries the claims talk about. -/
inductive PyError where
  /-- `json.JSONDecodeError` raised by `json.loads` on an invalid body. -/
  | jsonDecodeError : PyError
  /-- `TypeError` raised by `\x7b..., **x\x7d` when `x` is not a mapping. -/
  | typeError : PyError
  /-- database/data API failure (the spec's `SinkUnavailable`). -/
  | sinkUnavailable : PyError
  /-- a generic `botocore.exceptions.ClientError` from the provider. -/
  | clientError : PyError
deriving DecidableEq, Repr

/-- The two change-source variants: `SQSSource` keeps the raw body,
`SQSJsonSource` parses it as JSON. -/
inductive Variant where
  | raw : Variant
  | json : Variant
deriving DecidableEq, Repr

/-- Configuration taken by `SQSPollingService.__init__`: `uri`,
`pollinterval` (default 60), `codebase` and `aws_region`. -/
structure SQSConfig where
  uri : String
  pollinterval : Nat
  aws_region : String
  default_codebase : Option String
deriving DecidableEq, Repr

/-- The `json.loads` parser of Python's standard library, an external
collaborator: `none` models a raised `json.JSONDecodeError`. -/
abbrev Loads := String → Option Json

/-- `SQSSource.process_msg`: returns the message unchanged. -/
def SQSSource.process_msg (msg : RawMsg) : Except PyError PMsg :=
  Except.ok
    { messageId := msg.messageId
      receiptHandle := msg.receiptHandle
      body := Body.raw msg.body
      sentTimestamp := msg.sentTimestamp }

/-- `SQSJsonSource.process_msg`: `msg['Body'] = json.loads(msg['Body'])`;
a parse failure raises. -/
def SQSJsonSource.process_msg (loads : Loads) (msg : RawMsg) :
    Except PyError PMsg :=
  match loads msg.body with
  | none => Except.error PyError.jsonDecodeError
  | some j =>
      Except.ok
        { messageId := msg.messageId
          receiptHandle := msg.receiptHandle
          body := Body.parsed j
          sentTimestamp := msg.sentTimestamp }

/-- dispatch of `process_msg` over the variant in use. -/
def process_msg (v : Variant) (loads : Loads) (msg : RawMsg) :
    Except PyError PMsg :=
  match v with
  | Variant.raw => SQSSource.process_msg msg
  | Variant.json => SQSJsonSource.process_msg loads msg

/-- `SQSSource.msg_properties`: `\x7b'sqs_body': msg['Body']\x7d`. -/
def SQSSource.msg_properties (m : PMsg) : Except PyError (List (String × Json)) :=
  match m.body with
  | Body.raw s => Except.ok [("sqs_body", Json.str s)]
  | Body.parsed j => Except.ok [("sqs_body", j)]

/-- `SQSJsonSource.msg_properties`:
`\x7b'sqs_body': json.dumps(msg['Body']), **msg['Body']\x7d`.
Unpacking `**` a non-mapping raises `TypeError`. -/
def SQSJsonSource.msg_properties (m : PMsg) :
    Except PyError (List (String × Json)) :=
  match m.body with
  | Body.parsed (Json.obj fs) =>
      Except.ok (dictMerge [("sqs_body", Json.str (Json.dumps (Json.obj fs)))] fs)
  | _ => Except.error PyError.typeError

/-- dispatch of `msg_properties` over the variant in use. -/
def msg_properties (v : Variant) (m : PMsg) :
    Except PyError (List (String × Json)) :=
  match v with
  | Variant.raw => SQSSource.msg_properties m
  | Variant.json => SQSJsonSource.msg_properties m

/-- The change payload built by `SQSSource.msg_to_change`. -/
structure Change where
  src : String
  codebase : Option String
  repository : String
  project : Option String
  branch : String
  author : String
  comments : String
  when_timestamp : Rat
  revision : String
  properties : List (String × Json)

/-- `SQSSource.msg_to_change`: assembles the change dict from the
`msg_*` accessors.  `msg_timestamp` is
`int(msg['Attributes']['SentTimestamp']) / 1000`, Python true division,
modelled in `Rat`. -/
def msg_to_change (v : Variant) (cfg : SQSConfig) (m : PMsg) :
    Except PyError Change :=
  match msg_properties v m with
  | Except.error e => Except.error e
  | Except.ok props =>
      Except.ok
        { src := "sqs"
          codebase := cfg.default_codebase
          repository := cfg.uri
          project := none
          branch := ""
          author := "sqs"
          comments := "sqs"
          when_timestamp := (m.sentTimestamp : Rat) / 1000
          revision := m.messageId
          properties := props }

/-- Severity of a log line produced through `self.log`. -/
inductive LogLevel where
  | debug : LogLevel
  | info : LogLevel
  | error : LogLevel
deriving DecidableEq, Repr

/-- A `receive_message` response: `messages = none` models the absence of
the `Messages` key (the usual empty-queue response). -/
structure SqsResponse where
  messages : Option (List RawMsg)
deriving DecidableEq, Repr

/-- Behaviour of the provider on one `receive_message` call: a response, a
raised `botocore.exceptions.CredentialRetrievalError`, or another raised
client error. -/
inductive ReceiveBehavior where
  | resp (r : SqsResponse) : ReceiveBehavior
  | credentialError : ReceiveBehavior
  | clientError : ReceiveBehavior
deriving DecidableEq, Repr

/-- `SQSPollingService._get_sqs_msg`: calls `receive_message`; catches only
`CredentialRetrievalError`, logging it at error severity and falling through
to an implicit `return None`; any other exception propagates.  Returns the
logs produced together with the outcome. -/
def _get_sqs_msg (recv : ReceiveBehavior) :
    List LogLevel × Except PyError (Option SqsResponse) :=
  match recv with
  | ReceiveBehavior.resp r => ([], Except.ok (some r))
  | ReceiveBehavior.credentialError => ([LogLevel.error], Except.ok none)
  | ReceiveBehavior.clientError => ([], Except.error PyError.clientError)

/-- `SQSPollingService.is_empty`:
`resp is None or 'Messages' not in resp or not resp['Messages']`. -/
def is_empty (resp : Option SqsResponse) : Bool :=
  match resp with
  | none => true
  | some r =>
      match r.messages with
      | none => true
      | some ms => ms.isEmpty

/-- `SQSPollingService.sqs_poll`: gets a response off-thread, returns `None`
(after a debug log) when `is_empty`, else logs at info and returns
`resp['Messages'][0]`.  An exception from `_get_sqs_msg` propagates through
the `yield`. -/
def sqs_poll (recv : ReceiveBehavior) :
    List LogLevel × Except PyError (Option RawMsg) :=
  let logs := (_get_sqs_msg recv).1
  match (_get_sqs_msg recv).2 with
  | Except.error e => (logs, Except.error e)
  | Except.ok resp =>
      if is_empty resp then
        (logs ++ [LogLevel.debug], Except.ok none)
      else
        match resp with
        | some { messages := some (m :: _) } =>
            (logs ++ [LogLevel.info], Except.ok (some m))
        | _ => (logs, Except.ok none)

/-- The recorded changes visible through `self.master.db` /
`self.master.data.updates`: the Event Sink's persisted history. -/
structure SinkState where
  changes : List Change

/-- Availability of the Event Sink during one `handleMessage` call:
healthy, failing on the `change_exists` lookup (`self.master.db.pool.do`),
or failing on `addChange`. -/
inductive SinkBehavior where
  | ok : SinkBehavior
  | lookupFail : SinkBehavior
  | recordFail : SinkBehavior
deriving DecidableEq, Repr

/-- `SQSSource.change_exists` via `get_change`: a point query of the
changes table by exact revision match. -/
def change_exists (st : SinkState) (revision : String) : Bool :=
  st.changes.any (fun c => c.revision = revision)

/-- Observable outcome of one `handleMessage` call: the sink state after it,
the revisions looked up, the changes passed to `addChange`, and the
exception that escaped, if any (`err = none` means the returned Deferred
succeeded). -/
structure HandleOut where
  sink : SinkState
  lookups : List String
  added : List Change
  err : Option PyError

/-- `SQSSource.handleMessage`: `None` succeeds immediately; otherwise
`process_msg`, `msg_to_change`, then a `change_exists` lookup through the db
pool, and `addChange` only when the revision is not already recorded.  Any
raised exception propagates through the returned Deferred. -/
def handleMessage (v : Variant) (loads : Loads) (cfg : SQSConfig)
    (beh : SinkBehavior) (st : SinkState) (msg : Option RawMsg) : HandleOut :=
  match msg with
  | none => { sink := st, lookups := [], added := [], err := none }
  | some m =>
      match process_msg v loads m with
      | Except.error e => { sink := st, lookups := [], added := [], err := some e }
      | Except.ok pm =>
          match msg_to_change v cfg pm with
          | Except.error e => { sink := st, lookups := [], added := [], err := some e }
          | Except.ok payload =>
              match beh with
              | SinkBehavior.lookupFail =>
                  { sink := st, lookups := [], added := [],
                    err := some PyError.sinkUnavailable }
              | _ =>
                  if change_exists st payload.revision then
                    { sink := st, lookups := [payload.revision], added := [],
                      err := none }
                  else
                    match beh with
                    | SinkBehavior.recordFail =>
                        { sink := st, lookups := [payload.revision], added := [],
                          err := some PyError.sinkUnavailable }
                    | _ =>
                        { sink := { changes := st.changes ++ [payload] }
                          lookups := [payload.revision]
                          added := [payload]
                          err := none }

/-- Observable outcome of one `poll` cycle: sink state, lookups, `addChange`
calls, receipt handles passed to `delete_msg`, logs, and the exception that
escaped `poll()`, if any. -/
structure PollOut where
  sink : SinkState
  lookups : List String
  added : List Change
  deletes : List String
  logs : List LogLevel
  escaped : Option PyError

/-- `SQSPollingService.poll`:
`msg = yield self.sqs_poll(); if msg: yield self.handleMessage(msg);
self.delete_msg(msg)`.  `delete_msg` runs only when `handleMessage`
completed without error; an exception from either `yield` escapes. -/
def poll (v : Variant) (loads : Loads) (cfg : SQSConfig) (beh : SinkBehavior)
    (recv : ReceiveBehavior) (st : SinkState) : PollOut :=
  let plogs := (sqs_poll recv).1
  match (sqs_poll recv).2 with
  | Except.error e =>
      { sink := st, lookups := [], added := [], deletes := [], logs := plogs,
        escaped := some e }
  | Except.ok none =>
      { sink := st, lookups := [], added := [], deletes := [], logs := plogs,
        escaped := none }
  | Except.ok (some m) =>
      let h := handleMessage v loads cfg beh st (some m)
      match h.err with
      | some e =>
          { sink := h.sink, lookups := h.lookups, added := h.added,
            deletes := [], logs := plogs, escaped := some e }
      | none =>
          { sink := h.sink, lookups := h.lookups, added := h.added,
            deletes := [m.receiptHandle], logs := plogs, escaped := none }

/-- Service-level state: whether a timer is installed (`startService` sets
`timerService`, `stopService` disowns it and sets it to `None`) and the sink
history. -/
structure ServiceState where
  timerService : Bool
  sink : SinkState

/-- `SQSPollingService.stopService`: disowns the timer (no new polls are
scheduled) and clears `self.timerService`.  It touches nothing else. -/
def stopService (s : ServiceState) : ServiceState :=
  { s with timerService := false }

/-- One poll cycle run against the service state.  Translated from the
source: the body of `poll` never consults `timerService` or any
running/stopped flag, so the cycle acts on `s.sink` alone. -/
def pollStep (v : Variant) (loads : Loads) (cfg : SQSConfig)
    (beh : SinkBehavior) (recv : ReceiveBehavior) (s : ServiceState) :
    ServiceState × PollOut :=
  let out := poll v loads cfg beh recv s.sink
  ({ s with sink := out.sink }, out)

/-- `SQSSource.compare_attrs = ('uri', 'pollinterval')`. -/
def compare_attrs : List String := ["uri", "pollinterval"]

/-- A configuration attribute value, for `getattr`-style access. -/
inductive AttrVal where
  | str (s : String) : AttrVal
  | nat (n : Nat) : AttrVal
  | optStr (o : Option String) : AttrVal
deriving DecidableEq, Repr

/-- `getattr` over the configuration fields set in `__init__`. -/
def getAttr (c : SQSConfig) : String → Option AttrVal
  | "uri" => some (AttrVal.str c.uri)
  | "pollinterval" => some (AttrVal.nat c.pollinterval)
  | "aws_region" => some (AttrVal.str c.aws_region)
  | "default_codebase" => some (AttrVal.optStr c.default_codebase)
  | _ => none

/-- `buildbot.util.ComparableMixin` equality (external collaborator): two
instances of the same class are equal exactly when every attribute named in
`compare_attrs` compares equal. -/
def mixinEq (a b : SQSConfig) : Bool :=
  compare_attrs.all (fun n => getAttr a n = getAttr b n)

/-! Concrete fixtures, taken from the spec's scenarios and the repository's
test suite (`DummySQS.mock_put_msg`, queue uri, message id `aaaa`,
body `\x7b"foo": "bar"\x7d`, `SentTimestamp` 1573477920399). -/

/-- The configuration of the spec's scenarios. -/
def cfgEx : SQSConfig :=
  { uri := "http://sqs.example.com/queue"
    pollinterval := 60
    aws_region := "eu-central-1"
    default_codebase := some "cb" }

/-- The scenario message. -/
def mEx : RawMsg :=
  { messageId := "aaaa"
    receiptHandle := "rh-1"
    body := "\x7b\"foo\": \"bar\"\x7d"
    sentTimestamp := 1573477920399 }

/-- The scenario message after `SQSSource.process_msg` (raw body kept). -/
def pmEx : PMsg :=
  { messageId := "aaaa"
    receiptHandle := "rh-1"
    body := Body.raw "\x7b\"foo\": \"bar\"\x7d"
    sentTimestamp := 1573477920399 }

/-- A concrete `json.loads` oracle: parses the scenario body, rejects
everything else. -/
def loadsEx : Loads := fun s =>
  if s = "\x7b\"foo\": \"bar\"\x7d" then some (Json.obj [("foo", Json.str "bar")])
  else none

/-- An empty sink history. -/
def sinkEmpty : SinkState := { changes := [] }

/-- The change the raw variant builds from the scenario message. -/
def chEx : Change :=
  { src := "sqs"
    codebase := some "cb"
    repository := "http://sqs.example.com/queue"
    project := none
    branch := ""
    author := "sqs"
    comments := "sqs"
    when_timestamp := ((1573477920399 : Nat) : Rat) / 1000
    revision := "aaaa"
    properties := [("sqs_body", Json.str "\x7b\"foo\": \"bar\"\x7d")] }

/-- C10: `handleMessage(None)` returns `defer.succeed(None)` before touching
the database: no lookup, no `addChange`, sink unchanged, no error. -/
theorem handleMessage_none_noop (v : Variant) (loads : Loads) (cfg : SQSConfig)
    (beh : SinkBehavior) (st : SinkState) :
    handleMessage v loads cfg beh st none =
      { sink := st, lookups := [], added := [], err := none } := rfl

/-- C9: `ComparableMixin` equality over `compare_attrs = ('uri',
'pollinterval')` holds exactly when both `uri` and `pollinterval` agree;
no other configuration field enters the comparison. -/
theorem sqs_source_eq_iff (a b : SQSConfig) :
    compare_attrs = ["uri", "pollinterval"] ∧
    (mixinEq a b = true ↔ a.uri = b.uri ∧ a.pollinterval = b.pollinterval) := by
  refine ⟨rfl, ?_⟩
  simp [mixinEq, compare_attrs, getAttr]

/-- C5: the poll classifies a received response as empty exactly when it is
absent, lacks a `Messages` field, or carries an empty message list; otherwise
it yields the first message of the list and ignores the rest. -/
theorem sqs_poll_classification (r : SqsResponse) :
    is_empty none = true ∧
    ((sqs_poll (ReceiveBehavior.resp r)).2 = Except.ok none ↔
      r.messages = none ∨ r.messages = some []) ∧
    (∀ m rest, r.messages = some (m :: rest) →
      (sqs_poll (ReceiveBehavior.resp r)).2 = Except.ok (some m)) := by
  refine ⟨rfl, ?_, ?_⟩
  · obtain ⟨ms⟩ := r
    cases ms with
    | none => simp [sqs_poll, _get_sqs_msg, is_empty]
    | some l =>
      cases l with
      | nil => simp [sqs_poll, _get_sqs_msg, is_empty]
      | cons m rest => simp [sqs_poll, _get_sqs_msg, is_empty]
  · intro m rest hm
    obtain ⟨ms⟩ := r
    cases hm
    simp [sqs_poll, _get_sqs_msg, is_empty]

/-- Witness for C5 at the scenario message: a one-element `Messages` list is
classified as non-empty and yields that message. -/
theorem sqs_poll_classification_witness :
    (sqs_poll (ReceiveBehavior.resp { messages := some [mEx] })).2 =
      Except.ok (some mEx) :=
  (sqs_poll_classification { messages := some [mEx] }).2.2 mEx [] rfl

/-- C3 counterexample: a generic client error raised by the provider inside
`receive_message` is NOT caught by `_get_sqs_msg` (which handles only
`CredentialRetrievalError`), so the exception escapes `poll()`. -/
theorem client_error_escapes :
    (poll Variant.raw loadsEx cfgEx SinkBehavior.ok
        ReceiveBehavior.clientError sinkEmpty).escaped =
      some PyError.clientError := rfl

/-- C3 amended: only credential refresh errors are absorbed during receive:
they are logged once at error severity, treated as an empty poll, and cause
no delete; a generic client error from the provider escapes `poll()`
(still without any delete). -/
theorem transient_error_handling (v : Variant) (loads : Loads)
    (cfg : SQSConfig) (beh : SinkBehavior) (st : SinkState) :
    (poll v loads cfg beh ReceiveBehavior.credentialError st).escaped = none ∧
    (poll v loads cfg beh ReceiveBehavior.credentialError st).deletes = [] ∧
    (poll v loads cfg beh ReceiveBehavior.credentialError st).logs.count
        LogLevel.error = 1 ∧
    (poll v loads cfg beh ReceiveBehavior.clientError st).escaped =
      some PyError.clientError ∧
    (poll v loads cfg beh ReceiveBehavior.clientError st).deletes = [] :=
  ⟨rfl, rfl, rfl, rfl, rfl⟩

/-- A `json.loads` oracle that rejects every body. -/
def loadsNone : Loads := fun _ => none

/-- The message after `SQSJsonSource.process_msg` on the scenario body. -/
def pmJsonEx : PMsg :=
  { messageId := "aaaa"
    receiptHandle := "rh-1"
    body := Body.parsed (Json.obj [("foo", Json.str "bar")])
    sentTimestamp := 1573477920399 }

/-- The change payload the raw variant computes from a message (the value
`msg_to_change` returns on the raw path). -/
def rawChange (cfg : SQSConfig) (m : RawMsg) : Change :=
  { src := "sqs"
    codebase := cfg.default_codebase
    repository := cfg.uri
    project := none
    branch := ""
    author := "sqs"
    comments := "sqs"
    when_timestamp := (m.sentTimestamp : Rat) / 1000
    revision := m.messageId
    properties := [("sqs_body", Json.str m.body)] }

lemma poll_eq_of_msg (v : Variant) (loads : Loads) (cfg : SQSConfig)
    (beh : SinkBehavior) (recv : ReceiveBehavior) (st : SinkState) (m : RawMsg)
    (hm : (sqs_poll recv).2 = Except.ok (some m)) :
    poll v loads cfg beh recv st =
      match (handleMessage v loads cfg beh st (some m)).err with
      | some e =>
          { sink := (handleMessage v loads cfg beh st (some m)).sink
            lookups := (handleMessage v loads cfg beh st (some m)).lookups
            added := (handleMessage v loads cfg beh st (some m)).added
            deletes := []
            logs := (sqs_poll recv).1
            escaped := some e }
      | none =>
          { sink := (handleMessage v loads cfg beh st (some m)).sink
            lookups := (handleMessage v loads cfg beh st (some m)).lookups
            added := (handleMessage v loads cfg beh st (some m)).added
            deletes := [m.receiptHandle]
            logs := (sqs_poll recv).1
            escaped := none } := by
  unfold poll
  rw [hm]

lemma handleMessage_raw (loads : Loads) (cfg : SQSConfig) (st : SinkState)
    (m : RawMsg) :
    handleMessage Variant.raw loads cfg SinkBehavior.ok st (some m) =
      if change_exists st m.messageId then
        { sink := st, lookups := [m.messageId], added := [], err := none }
      else
        { sink := { changes := st.changes ++ [rawChange cfg m] }
          lookups := [m.messageId]
          added := [rawChange cfg m]
          err := none } := rfl

lemma change_exists_after_handle (loads : Loads) (cfg : SQSConfig)
    (st : SinkState) (m : RawMsg) :
    change_exists
      (handleMessage Variant.raw loads cfg SinkBehavior.ok st (some m)).sink
      m.messageId = true := by
  rw [handleMessage_raw]
  split
  · next h => exact h
  · next h => simp [change_exists, List.any_append, rawChange]

lemma poll_raw_single (loads : Loads) (cfg : SQSConfig) (st : SinkState)
    (m : RawMsg) :
    poll Variant.raw loads cfg SinkBehavior.ok
        (ReceiveBehavior.resp { messages := some [m] }) st =
      if change_exists st m.messageId then
        { sink := st, lookups := [m.messageId], added := [],
          deletes := [m.receiptHandle], logs := [LogLevel.info],
          escaped := none }
      else
        { sink := { changes := st.changes ++ [rawChange cfg m] }
          lookups := [m.messageId]
          added := [rawChange cfg m]
          deletes := [m.receiptHandle]
          logs := [LogLevel.info]
          escaped := none } := by
  rw [poll_eq_of_msg Variant.raw loads cfg SinkBehavior.ok
      (ReceiveBehavior.resp { messages := some [m] }) st m rfl,
    handleMessage_raw]
  by_cases hc : change_exists st m.messageId = true
  · simp [hc]
    rfl
  · simp [hc]
    rfl

/-- C1: for every polled message, `delete_msg` is invoked exactly when
`handleMessage` completed without error (and then exactly once, with that
message's receipt handle); any pipeline failure both escapes `poll()` and
leaves the message undeleted in that cycle. -/
theorem delete_iff_pipeline_ok (v : Variant) (loads : Loads) (cfg : SQSConfig)
    (beh : SinkBehavior) (recv : ReceiveBehavior) (st : SinkState) (m : RawMsg)
    (hm : (sqs_poll recv).2 = Except.ok (some m)) :
    ((poll v loads cfg beh recv st).deletes ≠ [] ↔
      (handleMessage v loads cfg beh st (some m)).err = none) ∧
    ((handleMessage v loads cfg beh st (some m)).err = none →
      (poll v loads cfg beh recv st).deletes = [m.receiptHandle]) ∧
    (∀ e, (handleMessage v loads cfg beh st (some m)).err = some e →
      (poll v loads cfg beh recv st).deletes = [] ∧
      (poll v loads cfg beh recv st).escaped = some e) := by
  rw [poll_eq_of_msg v loads cfg beh recv st m hm]
  cases herr : (handleMessage v loads cfg beh st (some m)).err with
  | none => simp
  | some e => simp

/-- Witness for C1: the scenario message, healthy sink: the pipeline
succeeds and `delete_msg` receives its receipt handle. -/
theorem delete_iff_pipeline_ok_witness :
    (poll Variant.raw loadsEx cfgEx SinkBehavior.ok
        (ReceiveBehavior.resp { messages := some [mEx] }) sinkEmpty).deletes =
      [mEx.receiptHandle] :=
  (delete_iff_pipeline_ok Variant.raw loadsEx cfgEx SinkBehavior.ok
      (ReceiveBehavior.resp { messages := some [mEx] }) sinkEmpty mEx rfl).2.1
    rfl

/-- C6: every change built by `msg_to_change` carries revision = message id,
timestamp = `SentTimestamp` milliseconds divided by 1000 (true division),
author and comment `'sqs'`, empty branch, the queue uri as repository, and
the configured default codebase. -/
theorem msg_to_change_fields (v : Variant) (cfg : SQSConfig) (m : PMsg)
    (ch : Change) (h : msg_to_change v cfg m = Except.ok ch) :
    ch.revision = m.messageId ∧
    ch.when_timestamp = (m.sentTimestamp : Rat) / 1000 ∧
    ch.author = "sqs" ∧ ch.comments = "sqs" ∧ ch.branch = "" ∧
    ch.repository = cfg.uri ∧ ch.codebase = cfg.default_codebase := by
  unfold msg_to_change at h
  cases hp : msg_properties v m with
  | error e => rw [hp] at h; exact absurd h (by simp)
  | ok props =>
      rw [hp] at h
      injection h with h
      subst h
      exact ⟨rfl, rfl, rfl, rfl, rfl, rfl, rfl⟩

/-- Witness for C6 at the spec scenario: id `aaaa`, `SentTimestamp`
1573477920399, raw variant. -/
theorem msg_to_change_fields_witness :
    chEx.revision = pmEx.messageId ∧
    chEx.when_timestamp = (pmEx.sentTimestamp : Rat) / 1000 ∧
    chEx.author = "sqs" ∧ chEx.comments = "sqs" ∧ chEx.branch = "" ∧
    chEx.repository = cfgEx.uri ∧ chEx.codebase = cfgEx.default_codebase :=
  msg_to_change_fields Variant.raw cfgEx pmEx chEx rfl

/-- C4: on the JSON variant, a body that does not parse, or parses to a
non-object, makes the pipeline raise (`json.JSONDecodeError` from
`process_msg`, or `TypeError` from the `**` unpacking in `msg_properties`);
the exception escapes `poll()` and the message is left undeleted. -/
theorem malformed_payload_undeleted (loads : Loads) (cfg : SQSConfig)
    (beh : SinkBehavior) (st : SinkState) (m : RawMsg)
    (hbad : ∀ j, loads m.body = some j → j.isObj = false) :
    ((handleMessage Variant.json loads cfg beh st (some m)).err =
        some PyError.jsonDecodeError ∨
      (handleMessage Variant.json loads cfg beh st (some m)).err =
        some PyError.typeError) ∧
    (poll Variant.json loads cfg beh
        (ReceiveBehavior.resp { messages := some [m] }) st).deletes = [] ∧
    (poll Variant.json loads cfg beh
        (ReceiveBehavior.resp { messages := some [m] }) st).escaped ≠ none := by
  have herr : (handleMessage Variant.json loads cfg beh st (some m)).err =
      some PyError.jsonDecodeError ∨
      (handleMessage Variant.json loads cfg beh st (some m)).err =
        some PyError.typeError := by
    cases hl : loads m.body with
    | none =>
        left
        simp [handleMessage, process_msg, SQSJsonSource.process_msg, hl]
    | some j =>
        right
        have hobj := hbad j hl
        cases j <;>
          simp_all [handleMessage, process_msg, SQSJsonSource.process_msg,
            msg_to_change, msg_properties, SQSJsonSource.msg_properties,
            Json.isObj]
  rcases herr with herr | herr <;>
    rw [poll_eq_of_msg Variant.json loads cfg beh
        (ReceiveBehavior.resp { messages := some [m] }) st m rfl] <;>
    simp [herr]

/-- Witness for C4: a body `json.loads` rejects; the poll deletes nothing. -/
theorem malformed_payload_undeleted_witness :
    (poll Variant.json loadsNone cfgEx SinkBehavior.ok
        (ReceiveBehavior.resp { messages := some [mEx] }) sinkEmpty).deletes =
      [] :=
  (malformed_payload_undeleted loadsNone cfgEx SinkBehavior.ok sinkEmpty mEx
      (fun j h => by simp [loadsNone] at h)).2.1

/-- C8 counterexample: after `stopService` (timer disowned), running the
still in-flight poll cycle on the stopped service both emits a change and
calls `delete_msg`: the source contains no running-state check before its
side-effecting steps. -/
theorem side_effects_after_stop :
    (stopService { timerService := true, sink := sinkEmpty }).timerService =
      false ∧
    ((pollStep Variant.raw loadsEx cfgEx SinkBehavior.ok
        (ReceiveBehavior.resp { messages := some [mEx] })
        (stopService { timerService := true, sink := sinkEmpty })).2).deletes =
      ["rh-1"] ∧
    ((pollStep Variant.raw loadsEx cfgEx SinkBehavior.ok
        (ReceiveBehavior.resp { messages := some [mEx] })
        (stopService { timerService := true, sink := sinkEmpty })).2).added.length =
      1 := ⟨rfl, rfl, rfl⟩

/-- C8 amended: `stopService` only removes the timer, so no further polls
are scheduled; the poll pipeline itself never consults the running state,
so an in-flight poll completing after stop has exactly the same lookup,
emission and delete effects as before stop. -/
theorem poll_ignores_stop (v : Variant) (loads : Loads) (cfg : SQSConfig)
    (beh : SinkBehavior) (recv : ReceiveBehavior) (s : ServiceState) :
    (pollStep v loads cfg beh recv (stopService s)).2 =
      (pollStep v loads cfg beh recv s).2 ∧
    (pollStep v loads cfg beh recv (stopService s)).1.sink =
      (pollStep v loads cfg beh recv s).1.sink ∧
    (stopService s).timerService = false := ⟨rfl, rfl, rfl⟩

lemma dictGet_cons (p : String × Json) (d : List (String × Json)) (k : String) :
    dictGet (p :: d) k = if p.1 = k then some p.2 else dictGet d k := by
  unfold dictGet
  by_cases h : p.1 = k
  · rw [List.find?_cons_of_pos _ (by simp [h]), if_pos h]
    rfl
  · rw [List.find?_cons_of_neg _ (by simp [h]), if_neg h]

lemma dictGet_map_overwrite (d : List (String × Json)) (k : String) (v : Json)
    (hany : d.any (fun p => p.1 = k) = true) :
    dictGet (d.map (fun p => if p.1 = k then (k, v) else p)) k = some v := by
  induction d with
  | nil => simp at hany
  | cons p rest ih =>
      by_cases hp : p.1 = k
      · simp [dictGet_cons, hp]
      · simp only [List.any_cons, Bool.or_eq_true, decide_eq_true_eq] at hany
        rcases hany with h | h
        · exact absurd h hp
        · simp [dictGet_cons, hp, ih h]

lemma dictGet_append_last (d : List (String × Json)) (k : String) (v : Json)
    (hnone : d.any (fun p => p.1 = k) = false) :
    dictGet (d ++ [(k, v)]) k = some v := by
  induction d with
  | nil => simp [dictGet_cons]
  | cons p rest ih =>
      simp only [List.any_cons, Bool.or_eq_false_iff,
        decide_eq_false_iff_not] at hnone
      simp [List.cons_append, dictGet_cons, hnone.1, ih hnone.2]

lemma dictGet_map_ne (d : List (String × Json)) (k : String) (v : Json)
    (hk : String) (h : hk ≠ k) :
    dictGet (d.map (fun p => if p.1 = k then (k, v) else p)) hk = dictGet d hk := by
  induction d with
  | nil => rfl
  | cons p rest ih =>
      by_cases hp : p.1 = k
      · simp [dictGet_cons, hp, ih, Ne.symm h]
      · simp [dictGet_cons, hp, ih]

lemma dictGet_append_ne (d : List (String × Json)) (k : String) (v : Json)
    (hk : String) (h : hk ≠ k) :
    dictGet (d ++ [(k, v)]) hk = dictGet d hk := by
  induction d with
  | nil => simp [dictGet_cons, Ne.symm h, dictGet]
  | cons p rest ih => simp [List.cons_append, dictGet_cons, ih]

lemma dictGet_dictInsert_self (d : List (String × Json)) (k : String)
    (v : Json) :
    dictGet (dictInsert d k v) k = some v := by
  unfold dictInsert
  split
  · next hany => exact dictGet_map_overwrite d k v hany
  · next hany => exact dictGet_append_last d k v (Bool.eq_false_iff.mpr hany)

lemma dictGet_dictInsert_ne (d : List (String × Json)) (k : String) (v : Json)
    (hk : String) (h : hk ≠ k) :
    dictGet (dictInsert d k v) hk = dictGet d hk := by
  unfold dictInsert
  split
  · exact dictGet_map_ne d k v hk h
  · exact dictGet_append_ne d k v hk h

lemma dictMerge_cons (d : List (String × Json)) (p : String × Json)
    (items : List (String × Json)) :
    dictMerge d (p :: items) = dictMerge (dictInsert d p.1 p.2) items := rfl

lemma dictGet_dictMerge_notin (d items : List (String × Json)) (k : String)
    (h : ∀ p ∈ items, p.1 ≠ k) :
    dictGet (dictMerge d items) k = dictGet d k := by
  induction items generalizing d with
  | nil => rfl
  | cons p rest ih =>
      rw [dictMerge_cons,
        ih _ (fun q hq => h q (List.mem_cons_of_mem p hq)),
        dictGet_dictInsert_ne d p.1 p.2 k
          (Ne.symm (h p (List.mem_cons_self p rest)))]

lemma dictGet_dictMerge_mem (d items : List (String × Json)) (k : String)
    (v : Json) (hnd : (items.map Prod.fst).Nodup) (hmem : (k, v) ∈ items) :
    dictGet (dictMerge d items) k = some v := by
  induction items generalizing d with
  | nil => cases hmem
  | cons p rest ih =>
      rw [dictMerge_cons]
      rcases List.mem_cons.mp hmem with he | hr
      · have hp1 : p.1 = k := by rw [← he]
        have hnotin : p.1 ∉ rest.map Prod.fst := by
          simp only [List.map_cons, List.nodup_cons] at hnd
          exact hnd.1
        have hrest : ∀ q ∈ rest, q.1 ≠ k := by
          intro q hq hqk
          apply hnotin
          rw [hp1, ← hqk]
          exact List.mem_map_of_mem Prod.fst hq
        rw [dictGet_dictMerge_notin _ rest k hrest, ← he]
        exact dictGet_dictInsert_self d k v
      · have hnd2 : (rest.map Prod.fst).Nodup := by
          simp only [List.map_cons, List.nodup_cons] at hnd
          exact hnd.2
        exact ih (dictInsert d p.1 p.2) hnd2 hr

/-- C7: on the JSON variant, for a body parsed to an object, the properties
dict is `\x7b'sqs_body': re-serialization\x7d` with all top-level pairs of
the object merged in; the object's own keys take precedence (each pair of
the object is retrievable), and `sqs_body` keeps the re-serialization only
when the object itself has no `sqs_body` key. -/
theorem json_properties_spec (m : PMsg) (fs : List (String × Json))
    (hb : m.body = Body.parsed (Json.obj fs))
    (hnd : (fs.map Prod.fst).Nodup) :
    SQSJsonSource.msg_properties m =
      Except.ok
        (dictMerge [("sqs_body", Json.str (Json.dumps (Json.obj fs)))] fs) ∧
    (∀ k v, (k, v) ∈ fs →
      dictGet (dictMerge [("sqs_body", Json.str (Json.dumps (Json.obj fs)))] fs)
          k = some v) ∧
    ((∀ p ∈ fs, p.1 ≠ "sqs_body") →
      dictGet (dictMerge [("sqs_body", Json.str (Json.dumps (Json.obj fs)))] fs)
          "sqs_body" = some (Json.str (Json.dumps (Json.obj fs)))) := by
  refine ⟨?_, ?_, ?_⟩
  · unfold SQSJsonSource.msg_properties
    rw [hb]
  · intro k v hmem
    exact dictGet_dictMerge_mem _ fs k v hnd hmem
  · intro hno
    rw [dictGet_dictMerge_notin _ fs "sqs_body" hno]
    rfl

/-- Witness for C7 at the scenario body `\x7b"foo": "bar"\x7d`: `foo` maps
to `"bar"` and `sqs_body` to the object's re-serialization. -/
theorem json_properties_spec_witness :
    dictGet
        (dictMerge
          [("sqs_body",
            Json.str (Json.dumps (Json.obj [("foo", Json.str "bar")])))]
          [("foo", Json.str "bar")]) "foo" = some (Json.str "bar") ∧
    dictGet
        (dictMerge
          [("sqs_body",
            Json.str (Json.dumps (Json.obj [("foo", Json.str "bar")])))]
          [("foo", Json.str "bar")]) "sqs_body" =
      some (Json.str "\x7b\"foo\": \"bar\"\x7d") := by
  constructor
  · exact (json_properties_spec pmJsonEx [("foo", Json.str "bar")] rfl
      (by simp)).2.1 "foo" (Json.str "bar") (by simp)
  · have h := (json_properties_spec pmJsonEx [("foo", Json.str "bar")] rfl
      (by simp)).2.2 (by simp)
    have hs : Json.dumps (Json.obj [("foo", Json.str "bar")]) =
        "\x7b\"foo\": \"bar\"\x7d" := by
      simp only [Json.dumps, Json.dumpsFields, jsonEscape, escapeChars]
      decide
    rw [← hs]
    exact h

/-- C2: redelivery of the same message id: the second cycle looks the
revision up, finds it recorded, skips `addChange`, and still deletes; at
most one change is recorded for the revision across both cycles. -/
theorem idempotent_redelivery (loads : Loads) (cfg : SQSConfig)
    (st : SinkState) (m1 m2 : RawMsg) (hid : m2.messageId = m1.messageId) :
    (poll Variant.raw loads cfg SinkBehavior.ok
        (ReceiveBehavior.resp { messages := some [m1] }) st).deletes =
      [m1.receiptHandle] ∧
    (poll Variant.raw loads cfg SinkBehavior.ok
        (ReceiveBehavior.resp { messages := some [m2] })
        (poll Variant.raw loads cfg SinkBehavior.ok
          (ReceiveBehavior.resp { messages := some [m1] }) st).sink).deletes =
      [m2.receiptHandle] ∧
    (poll Variant.raw loads cfg SinkBehavior.ok
        (ReceiveBehavior.resp { messages := some [m2] })
        (poll Variant.raw loads cfg SinkBehavior.ok
          (ReceiveBehavior.resp { messages := some [m1] }) st).sink).lookups =
      [m2.messageId] ∧
    (poll Variant.raw loads cfg SinkBehavior.ok
        (ReceiveBehavior.resp { messages := some [m2] })
        (poll Variant.raw loads cfg SinkBehavior.ok
          (ReceiveBehavior.resp { messages := some [m1] }) st).sink).added =
      [] ∧
    ((poll Variant.raw loads cfg SinkBehavior.ok
          (ReceiveBehavior.resp { messages := some [m1] }) st).added ++
        (poll Variant.raw loads cfg SinkBehavior.ok
          (ReceiveBehavior.resp { messages := some [m2] })
          (poll Variant.raw loads cfg SinkBehavior.ok
            (ReceiveBehavior.resp { messages := some [m1] }) st).sink).added).countP
        (fun c => c.revision == m1.messageId) ≤ 1 := by
  have hdel : ∀ (s : SinkState) (m : RawMsg),
      (poll Variant.raw loads cfg SinkBehavior.ok
        (ReceiveBehavior.resp { messages := some [m] }) s).deletes =
        [m.receiptHandle] := by
    intro s m
    rw [poll_raw_single]
    by_cases hc : change_exists s m.messageId = true <;> simp [hc]
  have hlook : ∀ (s : SinkState) (m : RawMsg),
      (poll Variant.raw loads cfg SinkBehavior.ok
        (ReceiveBehavior.resp { messages := some [m] }) s).lookups =
        [m.messageId] := by
    intro s m
    rw [poll_raw_single]
    by_cases hc : change_exists s m.messageId = true <;> simp [hc]
  have hsink : ∀ (s : SinkState) (m : RawMsg),
      (poll Variant.raw loads cfg SinkBehavior.ok
        (ReceiveBehavior.resp { messages := some [m] }) s).sink =
        (handleMessage Variant.raw loads cfg SinkBehavior.ok s (some m)).sink := by
    intro s m
    rw [poll_raw_single, handleMessage_raw]
    by_cases hc : change_exists s m.messageId = true <;> simp [hc]
  have hdup : ∀ (s : SinkState) (m : RawMsg),
      change_exists s m.messageId = true →
      (poll Variant.raw loads cfg SinkBehavior.ok
        (ReceiveBehavior.resp { messages := some [m] }) s).added = [] := by
    intro s m hc
    rw [poll_raw_single]
    simp [hc]
  have hcnt : ∀ (s : SinkState) (m : RawMsg),
      ((poll Variant.raw loads cfg SinkBehavior.ok
        (ReceiveBehavior.resp { messages := some [m] }) s).added).countP
        (fun c => c.revision == m.messageId) ≤ 1 := by
    intro s m
    rw [poll_raw_single]
    by_cases hc : change_exists s m.messageId = true <;>
      simp [hc, rawChange, List.countP_cons]
  have h2exists : change_exists
      (poll Variant.raw loads cfg SinkBehavior.ok
        (ReceiveBehavior.resp { messages := some [m1] }) st).sink
      m2.messageId = true := by
    rw [hid, hsink st m1]
    exact change_exists_after_handle loads cfg st m1
  have h2added := hdup _ m2 h2exists
  refine ⟨hdel st m1, hdel _ m2, hlook _ m2, h2added, ?_⟩
  rw [List.countP_append, h2added]
  simpa using hcnt st m1

/-- The scenario message redelivered: same id, a fresh delivery-attempt
receipt handle. -/
def mEx2 : RawMsg :=
  { messageId := "aaaa"
    receiptHandle := "rh-2"
    body := "\x7b\"foo\": \"bar\"\x7d"
    sentTimestamp := 1573477920399 }

/-- Witness for C2: id `aaaa` delivered twice into an empty sink: the second
cycle still deletes but records nothing. -/
theorem idempotent_redelivery_witness :
    (poll Variant.raw loadsEx cfgEx SinkBehavior.ok
        (ReceiveBehavior.resp { messages := some [mEx2] })
        (poll Variant.raw loadsEx cfgEx SinkBehavior.ok
          (ReceiveBehavior.resp { messages := some [mEx] }) sinkEmpty).sink).deletes =
      [mEx2.receiptHandle] ∧
    (poll Variant.raw loadsEx cfgEx SinkBehavior.ok
        (ReceiveBehavior.resp { messages := some [mEx2] })
        (poll Variant.raw loadsEx cfgEx SinkBehavior.ok
          (ReceiveBehavior.resp { messages := some [mEx] }) sinkEmpty).sink).added =
      [] :=
  ⟨(idempotent_redelivery loadsEx cfgEx sinkEmpty mEx mEx2 rfl).2.1,
    (idempotent_redelivery loadsEx cfgEx sinkEmpty mEx mEx2 rfl).2.2.2.1⟩

end BuildbotAwsSqs
